import Mathlib

/-!
Verification of the frame_matcher annotation-conversion pipeline.

Shallow embedding of the core of the repository:
- `src/utils/yolo_converter.py`  (`_convert_bbox_to_yolo`, `create_yolo_annotation`)
- `src/utils/coco_converter.py`  (`_convert_bbox_to_coco`)
- `src/utils/video_matcher.py`   (`find_matching_video`)
- `src/utils/frame_extractor.py` (`extract_frames_batch`)
- `src/utils/annotation_processor.py` (loading, class validation, the
  per-record processing loop of `_process_annotations`)

Python floats are modelled as rationals (the percentages, canvas sizes and
clamping arithmetic involved here are exact decimal computations).
Fallible Python code is modelled in `Except`, with `PyErr` mirroring the
exception classes that the source can raise.  Names ending in the word
"annotation" are shortened to "Annot" for technical reasons; they embed
the identically-spelled source symbols.
-/

/-- Python exceptions that the embedded code can raise.
`missingClasses` models the `ValueError` raised by
`_validate_class_mappings`, carrying the set of missing class names that
the source interpolates into the message. -/
inductive PyErr where
  | typeError (msg : String)
  | indexError
  | keyError (key : String)
  | valueError (msg : String)
  | missingClasses (missing : Finset String)
deriving DecidableEq

/-! ## Geometry conversion: `yolo_converter._convert_bbox_to_yolo` -/

/-- `YOLOConverter._convert_bbox_to_yolo` (src/utils/yolo_converter.py,
lines 20-48).  Input box in percentages, image dimensions in pixels (the
source accepts them but never reads them).  Returns the normalized
center-format quadruple, each component clamped to `[0,1]`. -/
def convertBboxToYolo (x y width height : ℚ) (imgWidth imgHeight : ℕ) : ℚ × ℚ × ℚ × ℚ :=
  let xNorm := x / 100
  let yNorm := y / 100
  let widthNorm := width / 100
  let heightNorm := height / 100
  let centerX := xNorm + widthNorm / 2
  let centerY := yNorm + heightNorm / 2
  (max 0 (min 1 centerX), max 0 (min 1 centerY),
   max 0 (min 1 widthNorm), max 0 (min 1 heightNorm))

/-! ## Geometry conversion: `coco_converter._convert_bbox_to_coco` -/

/-- `COCOConverter._convert_bbox_to_coco` (src/utils/coco_converter.py,
lines 56-80).  The source receives integer image dimensions and does float
arithmetic; dimensions are embedded as rationals, with integrality and
positivity imposed as hypotheses where a theorem needs them. -/
def convertBboxToCoco (x y width height imgWidth imgHeight : ℚ) : ℚ × ℚ × ℚ × ℚ :=
  let xPixels := x / 100 * imgWidth
  let yPixels := y / 100 * imgHeight
  let widthPixels := width / 100 * imgWidth
  let heightPixels := height / 100 * imgHeight
  let xC := max 0 (min (imgWidth - 1) xPixels)
  let yC := max 0 (min (imgHeight - 1) yPixels)
  let wC := max 1 (min (imgWidth - xC) widthPixels)
  let hC := max 1 (min (imgHeight - yC) heightPixels)
  (xC, yC, wC, hC)

/-! ## Decimal rendering: Python `str(int)` and the `:.6f` format -/

/-- The ASCII digit character for `d < 10` (Python digit rendering). -/
def digitChar (d : ℕ) : Char := Char.ofNat (48 + d)

/-- Fuel-indexed base-10 digit accumulator (most significant first). -/
def natDigitsAux : ℕ → ℕ → List Char → List Char
  | 0, _, acc => acc
  | fuel + 1, n, acc =>
    if n < 10 then digitChar n :: acc
    else natDigitsAux fuel (n / 10) (digitChar (n % 10) :: acc)

/-- Base-10 digits of a natural number, as Python `str` prints them. -/
def natDigits (n : ℕ) : List Char := natDigitsAux (n + 1) n []

/-- Python `str` of a natural number. -/
def natRepr (n : ℕ) : String := ⟨natDigits n⟩

/-- Python `str` of an integer. -/
def pyIntRepr (i : ℤ) : String :=
  (if i < 0 then "-" else "") ++ natRepr i.natAbs

/-- Fractional part of the `:.6f` rendering: `n < 10^6` zero-padded to
exactly six digits. -/
def fracRepr6 (n : ℕ) : String :=
  ⟨List.replicate (6 - (natDigits n).length) '0' ++ natDigits n⟩

/-- Floor of a rational as an integer (`Int.fdiv` is floor division). -/
def ratFloor (q : ℚ) : ℤ := Int.fdiv q.num (q.den : ℤ)

/-- Python fixed-point formatting of a float with six decimals (the
`.6f` format spec), on the rational model:
the value is rounded to six decimal places (the source formats IEEE
doubles; rounding of exact half-way decimals is modelled as round half
up, which agrees with the source on every value this pipeline prints,
all of which are clamped to `[0,1]` first) and printed with exactly six
fractional digits. -/
def fmt6 (q : ℚ) : String :=
  let n : ℤ := ratFloor (q * 1000000 + 1/2)
  (if n < 0 then "-" else "") ++
    natRepr (n.natAbs / 1000000) ++ "." ++ fracRepr6 (n.natAbs % 1000000)

/-! ## Per-box YOLO label line: `yolo_converter.create_yolo_annotation` -/

/-- One bounding-box descriptor, as built by `_process_annotations`
(the `bbox_data` dictionary, src/utils/annotation_processor.py
lines 100-109). -/
structure BBoxData where
  class_id : ℤ
  class_name : String
  x : ℚ
  y : ℚ
  width : ℚ
  height : ℚ
  frame : ℤ
  time : ℚ
deriving DecidableEq

/-- The per-box f-string of `create_yolo_annotation`
(src/utils/yolo_converter.py line 79): the class id and the four
six-decimal coordinates, five fields joined by single spaces. -/
def yoloLine (a : BBoxData) (imgWidth imgHeight : ℕ) : String :=
  let r := convertBboxToYolo a.x a.y a.width a.height imgWidth imgHeight
  String.intercalate " "
    [pyIntRepr a.class_id, fmt6 r.1, fmt6 r.2.1, fmt6 r.2.2.1, fmt6 r.2.2.2]

/-- `YOLOConverter.create_yolo_annotation` (src/utils/yolo_converter.py,
lines 50-82), modelled as the file content it writes: the loop appends one
line per annotation to `yolo_lines`, and the file receives
a newline-join of `yolo_lines`.  `imgShape` is `image_shape[:2] = (height, width)`. -/
def createYoloAnnot (anns : List BBoxData) (imgShape : ℕ × ℕ) : String :=
  let yoloLines := anns.foldl (fun acc a => acc ++ [yoloLine a imgShape.2 imgShape.1]) []
  String.intercalate "\n" yoloLines

/-! ## String helpers for `pathlib.Path` and `re` as used by the matcher -/

/-- Boolean prefix test on character lists. -/
def isPrefixOfCh : List Char → List Char → Bool
  | [], _ => true
  | _ :: _, [] => false
  | a :: as, b :: bs => a == b && isPrefixOfCh as bs

/-- Python's `needle in hay` substring containment. -/
def containsSub : List Char → List Char → Bool
  | needle, [] => needle.isEmpty
  | needle, c :: rest => isPrefixOfCh needle (c :: rest) || containsSub needle rest

/-- `pathlib.Path(s).name`: the component after the last `/` (POSIX paths
without a trailing separator, which is the shape of every path this
pipeline sees). -/
def pathName (s : String) : String :=
  ⟨(s.data.reverse.takeWhile (fun c => c != '/')).reverse⟩

/-- `pathlib.Path(name).stem` for a single component `name`: the name with
its last extension removed; the final dot is an extension separator only
when it is neither the first nor the last character. -/
def stemOf (name : String) : String :=
  let cs := name.data
  let afterDot := cs.reverse.takeWhile (fun c => c != '.')
  if afterDot.length = cs.length then name
  else
    let i := cs.length - afterDot.length - 1
    if 0 < i ∧ afterDot.length ≥ 1 then ⟨cs.take i⟩ else name

/-- `video_file.stem` for a candidate path: stem of its basename. -/
def vstem (v : String) : String := stemOf (pathName v)

/-- `re.search` with pattern `-(.+)$`: the text after the first dash
that is followed by at least one character, if any. -/
def dashTail : List Char → Option (List Char)
  | [] => none
  | c :: rest => if c = '-' ∧ rest ≠ [] then some rest else dashTail rest

/-- Character class `[a-f0-9]` of the hash-prefix pattern. -/
def isHexChar (c : Char) : Bool :=
  ('a' ≤ c && c ≤ 'f') || ('0' ≤ c && c ≤ '9')

/-- `re.sub` deleting the anchored pattern `^[a-f0-9]+-`: it matches exactly
when the maximal leading hex run is nonempty and is followed by a dash, in
which case run and dash are removed. -/
def cleanStem (s : String) : String :=
  let run := s.data.takeWhile isHexChar
  match s.data.drop run.length with
  | '-' :: rest => if run.length > 0 then ⟨rest⟩ else s
  | _ => s

/-! ## `video_matcher.VideoMatcher.find_matching_video` -/

/-- Strategy 1 (src/utils/video_matcher.py lines 45-48): exact basename
match against the candidate list. -/
def strategy1 (videoFiles : List String) (jsonFilename : String) : Option String :=
  videoFiles.find? (fun v => pathName v == jsonFilename)

/-- Strategy 2 (lines 50-59): the part after the dash compared exactly
against candidate filenames. -/
def strategy2 (videoFiles : List String) (jsonFilename : String) : Option String :=
  match dashTail jsonFilename.data with
  | none => none
  | some mp => videoFiles.find? (fun v => pathName v == String.mk mp)

/-- Strategy 3 (lines 61-68): stem of the after-dash part as a substring
of a candidate's stem. -/
def strategy3 (videoFiles : List String) (jsonFilename : String) : Option String :=
  match dashTail jsonFilename.data with
  | none => none
  | some mp =>
    videoFiles.find? (fun v => containsSub (stemOf (String.mk mp)).data (vstem v).data)

/-- Strategy 4 (lines 70-78): when the reference stem is longer than 10
characters, strip a leading hex-token prefix and test substring
containment in either direction against candidate stems. -/
def strategy4 (videoFiles : List String) (jsonFilename : String) : Option String :=
  let jsonStem := stemOf jsonFilename
  if jsonStem.data.length > 10 then
    let clean := cleanStem jsonStem
    videoFiles.find? (fun v =>
      containsSub clean.data (vstem v).data || containsSub (vstem v).data clean.data)
  else none

/-- `VideoMatcher.find_matching_video` (src/utils/video_matcher.py,
lines 32-83), over the candidate list gathered at construction.  Written
with the source's early-return structure; the diagnostic prints on the
no-match path produce no value. -/
def find_matching_video (videoFiles : List String) (jsonVideoPath : String) : Option String :=
  let jsonFilename := pathName jsonVideoPath
  match videoFiles.find? (fun v => pathName v == jsonFilename) with
  | some v => some v
  | none =>
    match dashTail jsonFilename.data with
    | some mp =>
      match videoFiles.find? (fun v => pathName v == String.mk mp) with
      | some v => some v
      | none =>
        match videoFiles.find? (fun v => containsSub (stemOf (String.mk mp)).data (vstem v).data) with
        | some v => some v
        | none => strategy4 videoFiles jsonFilename
    | none => strategy4 videoFiles jsonFilename

/-! ## Data model of the annotation document (§6 of the source's input) -/

/-- One entry of a track's `sequence` list.  `frame` and `enabled` are
`Option` because the source probes them with a `not in` test for the
frame key and with `.get` defaulting `enabled` to `True`; `time` is read
with `.get` defaulting to 0.  The
geometry keys are accessed unconditionally. -/
structure SequenceItem where
  frame : Option ℤ
  x : ℚ
  y : ℚ
  width : ℚ
  height : ℚ
  time : Option ℚ
  enabled : Option Bool
deriving DecidableEq

/-- One element of a record's `box` list: a single-class track.
`labels` is read by subscripting entry 0; `framesCount` and `duration`
with `.get` defaulting to 0. -/
structure BoxTrack where
  labels : List String
  sequence : List SequenceItem
  framesCount : Option ℤ
  duration : Option ℚ
deriving DecidableEq

/-- One annotation record: the `video` key is required, the `box`
key may be absent (the source defaults it differently at its two read
sites). -/
structure AnnotRecord where
  video : String
  box : Option (List BoxTrack)
deriving DecidableEq

/-- The per-video result assembled by `_process_annotations`
(src/utils/annotation_processor.py lines 115-121): the `entries` list
carries the `(frame_num, bbox_data)` pairs in arrival order; the
defaultdict `frame_annotations` is their grouping by frame
(see `frameMap`). -/
structure ProcessedVideo where
  videoFile : String
  entries : List (ℤ × BBoxData)
  framesCount : ℤ
  duration : ℚ
deriving DecidableEq

/-- `class_mappings`: the caller-supplied dict from class name to id. -/
abbrev ClassMap := List (String × ℤ)

/-- The `bbox_data` dictionary built at
src/utils/annotation_processor.py lines 100-109. -/
def mkBBox (classId : ℤ) (className : String) (it : SequenceItem) (frameNum : ℤ) : BBoxData :=
  { class_id := classId, class_name := className,
    x := it.x, y := it.y, width := it.width, height := it.height,
    frame := frameNum, time := it.time.getD 0 }

/-- The two `continue` guards of the sequence loop (lines 94-97): an item
is kept when it has a `frame` key and `enabled` is not literally `False`
(an absent `enabled` defaults to `True`). -/
def keptItem (it : SequenceItem) : Bool :=
  it.frame.isSome && !(it.enabled == some false)

/-- The inner sequence loop for one track (lines 93-112): each kept item
contributes `(frame_num, bbox_data)` in sequence order. -/
def collectBox (classId : ℤ) (className : String) (items : List SequenceItem) :
    List (ℤ × BBoxData) :=
  items.filterMap (fun it =>
    match it.frame with
    | none => none
    | some n => if it.enabled == some false then none else some (n, mkBBox classId className it n))

/-- The outer loop over the `box` list defaulted to `[]` (lines 88-112):
subscripting `labels` at 0 raises `IndexError` on an empty label list and the
class-map subscript raises `KeyError` on an unmapped name; otherwise the
tracks' kept items are concatenated in arrival order. -/
def collectEntries (cm : ClassMap) : List BoxTrack → Except PyErr (List (ℤ × BBoxData))
  | [] => Except.ok []
  | b :: bs =>
    match b.labels with
    | [] => Except.error PyErr.indexError
    | cn :: _ =>
      match List.lookup cn cm with
      | none => Except.error (PyErr.keyError cn)
      | some cid =>
        match collectEntries cm bs with
        | Except.error e => Except.error e
        | Except.ok rest => Except.ok (collectBox cid cn b.sequence ++ rest)

/-- The `frame_annotations` defaultdict viewed as a map: the list stored
under a frame key is the arrival-ordered sublist of entries for that
frame. -/
def frameMap (entries : List (ℤ × BBoxData)) : ℤ → List BBoxData :=
  fun f => (entries.filter (fun e => e.1 == f)).map Prod.snd

/-- The body of the record loop of `_process_annotations` after the
matcher call (src/utils/annotation_processor.py lines 78-121), given the
resolution outcome `mv` of the record's video reference:
an unresolved record is skipped with a warning (`Except.ok none`); a
resolved one has its tracks flattened, then `framesCount`/`duration` are
read from entry 0 of the `box` list defaulted to a one-empty-dict list,
which defaults only when the
`box` key is absent and raises `IndexError` when it holds an empty list. -/
def afterResolve (cm : ClassMap) (r : AnnotRecord) (mv : Option String) :
    Except PyErr (Option ProcessedVideo) :=
  match mv with
  | none => Except.ok none
  | some vf =>
    match collectEntries cm (r.box.getD []) with
    | Except.error e => Except.error e
    | Except.ok entries =>
      match r.box with
      | none => Except.ok (some ⟨vf, entries, 0, 0⟩)
      | some [] => Except.error PyErr.indexError
      | some (t :: _) => Except.ok (some ⟨vf, entries, t.framesCount.getD 0, t.duration.getD 0⟩)

/-- One record of `_process_annotations`, with the matcher's resolution
outcome supplied by `resolve` (what a call `find_matching_video(ref)`
would return; the source's actual call site is modelled separately by
`callMatcher`, see C1). -/
def processRecord (cm : ClassMap) (resolve : String → Option String) (r : AnnotRecord) :
    Except PyErr (Option ProcessedVideo) :=
  afterResolve cm r (resolve r.video)

/-- The record loop of `_process_annotations` with resolution outcomes
supplied directly (the processed videos in record order; the source keys
them by path string, which this list model refines). -/
def processAnnotsResolved (cm : ClassMap) (resolve : String → Option String) :
    List AnnotRecord → Except PyErr (List ProcessedVideo)
  | [] => Except.ok []
  | r :: rs =>
    match processRecord cm resolve r with
    | Except.error e => Except.error e
    | Except.ok h =>
      match processAnnotsResolved cm resolve rs with
      | Except.error e => Except.error e
      | Except.ok rest => Except.ok (match h with | none => rest | some pv => pv :: rest)

/-! ## The matcher call site of `_process_annotations` (Python call
semantics).  `find_matching_video` is defined in
src/utils/video_matcher.py with the parameter list
`(self, json_video_path)`; the call at
src/utils/annotation_processor.py line 76 passes the keyword argument
`prefer_exact_match`, and Python raises `TypeError` for a keyword
argument that matches no parameter name. -/

/-- Parameter names of `VideoMatcher.find_matching_video`
(src/utils/video_matcher.py line 32). -/
def findMatchingVideoParamNames : List String := ["self", "json_video_path"]

/-- Keyword arguments of the call at
src/utils/annotation_processor.py line 76. -/
def matcherCallKwargs : List String := ["prefer_exact_match"]

/-- The call `self.video_matcher.find_matching_video(video_path_str,
prefer_exact_match=self.use_exact_matching)` under Python's calling
convention: it evaluates to the callee's result only when every keyword
argument names a parameter, and raises `TypeError` otherwise. -/
def callMatcher (resolve : String → Option String) (ref : String) :
    Except PyErr (Option String) :=
  if matcherCallKwargs.all (fun k => findMatchingVideoParamNames.contains k)
  then Except.ok (resolve ref)
  else Except.error
    (PyErr.typeError "find_matching_video got an unexpected keyword argument prefer_exact_match")

/-- `AnnotationProcessor._process_annotations`
(src/utils/annotation_processor.py lines 65-125) with the actual call
site of line 76: each record first goes through `callMatcher`, then
through the same per-record body as `processAnnotsResolved`. -/
def processAnnots (cm : ClassMap) (resolve : String → Option String) :
    List AnnotRecord → Except PyErr (List ProcessedVideo)
  | [] => Except.ok []
  | r :: rs =>
    match callMatcher resolve r.video with
    | Except.error e => Except.error e
    | Except.ok mv =>
      match afterResolve cm r mv with
      | Except.error e => Except.error e
      | Except.ok h =>
        match processAnnots cm resolve rs with
        | Except.error e => Except.error e
        | Except.ok rest => Except.ok (match h with | none => rest | some pv => pv :: rest)

/-! ## Loading and class validation (`AnnotationProcessor.__init__`) -/

/-- `AnnotationProcessor._load_annotations`
(src/utils/annotation_processor.py lines 41-47): the outcome of
`json.load` on the annotations file is the input (`Except.error` for a
`JSONDecodeError` or `FileNotFoundError`), re-raised as `ValueError`. -/
def loadAnnots (parsed : Except String (List AnnotRecord)) :
    Except PyErr (List AnnotRecord) :=
  match parsed with
  | Except.error e => Except.error (PyErr.valueError ("Error loading annotations: " ++ e))
  | Except.ok recs => Except.ok recs

/-- The set `annotation_classes` accumulated by
`_validate_class_mappings` (lines 49-56): the union of `labels` over all
tracks of all records, with the `box` key defaulted to `[]`. -/
def annotClasses (records : List AnnotRecord) : Finset String :=
  records.foldl
    (fun s r => (r.box.getD []).foldl (fun s2 b => s2 ∪ b.labels.toFinset) s) ∅

/-- Key set of the class mapping. -/
def mapKeys (cm : ClassMap) : Finset String := (cm.map Prod.fst).toFinset

/-- `AnnotationProcessor._validate_class_mappings` (lines 49-60):
computes `annotation_classes - set(class_mappings)` and raises a
`ValueError` naming exactly that difference when it is nonempty. -/
def validateClassMaps (cm : ClassMap) (records : List AnnotRecord) : Except PyErr Unit :=
  let missing := annotClasses records \ mapKeys cm
  if missing = ∅ then Except.ok () else Except.error (PyErr.missingClasses missing)

/-- `AnnotationProcessor.__init__` (lines 18-39): load, then validate;
the constructor performs no file writes. -/
def initProcessor (parsed : Except String (List AnnotRecord)) (cm : ClassMap) :
    Except PyErr (List AnnotRecord) :=
  match loadAnnots parsed with
  | Except.error e => Except.error e
  | Except.ok recs =>
    match validateClassMaps cm recs with
    | Except.error e => Except.error e
    | Except.ok _ => Except.ok recs

/-- The caller's sequencing (src/main.py lines 130-146): the processor is
constructed first, and only a successful construction reaches a
conversion call; `emit` stands for whatever output files the chosen
conversion would write from the validated records. -/
def runPipeline (parsed : Except String (List AnnotRecord)) (cm : ClassMap)
    (emit : List AnnotRecord → List String) : Except PyErr (List String) :=
  match initProcessor parsed cm with
  | Except.error e => Except.error e
  | Except.ok recs => Except.ok (emit recs)

/-! ## `frame_extractor.FrameExtractor.extract_frames_batch` -/

/-- Decoded frame content (opaque payload id). -/
abbrev Frame := ℕ

/-- Model of one video file as seen through `cv2.VideoCapture`:
whether `isOpened()` succeeds, `CAP_PROP_FRAME_COUNT`, the outcome of
`cap.read()` positioned at a 0-indexed frame (`none` models
`ret == False`), and whether the set/read raises an exception there. -/
structure VideoModel where
  opensOk : Bool
  totalFrames : ℤ
  readAt : ℤ → Option Frame
  raiseAt : ℤ → Bool

/-- Observable capture-handle events of one `extract_frames_batch` call. -/
inductive CapEvent where
  | openCap (ok : Bool)
  | releaseCap
deriving DecidableEq

/-- Stable ascending insertion (Python `sorted` on integers). -/
def insertAsc (x : ℤ) : List ℤ → List ℤ
  | [] => [x]
  | y :: ys => if x ≤ y then x :: y :: ys else y :: insertAsc x ys

/-- Python `sorted(frame_numbers)`. -/
def sortAsc : List ℤ → List ℤ
  | [] => []
  | x :: xs => insertAsc x (sortAsc xs)

/-- The `for frame_number in sorted_frames` loop
(src/utils/frame_extractor.py lines 49-67): out-of-range numbers and
failed reads map to `None`; an exception (`Except.error`) abandons the
loop. -/
def extractLoop (v : VideoModel) : List ℤ → List (ℤ × Option Frame) →
    Except Unit (List (ℤ × Option Frame))
  | [], acc => Except.ok acc
  | fn :: rest, acc =>
    if fn < 1 ∨ fn > v.totalFrames then extractLoop v rest (acc ++ [(fn, none)])
    else if v.raiseAt (fn - 1) then Except.error ()
    else extractLoop v rest (acc ++ [(fn, v.readAt (fn - 1))])

/-- `FrameExtractor.extract_frames_batch` (src/utils/frame_extractor.py,
lines 15-71), returning the `results` dict (as an assoc list in insertion
order) together with the capture-handle events of the call: an empty
request returns before any open; a failed open returns all-`None` without
a release; a caught exception returns all-`None` without a release; the
normal path releases the handle before returning. -/
def extract_frames_batch (v : VideoModel) (frameNumbers : List ℤ) :
    List (ℤ × Option Frame) × List CapEvent :=
  if frameNumbers.isEmpty then ([], [])
  else if !v.opensOk then
    (frameNumbers.map (fun fn => (fn, none)), [CapEvent.openCap false])
  else
    match extractLoop v (sortAsc frameNumbers) [] with
    | Except.ok rs => (rs, [CapEvent.openCap true, CapEvent.releaseCap])
    | Except.error _ =>
      (frameNumbers.map (fun fn => (fn, none)), [CapEvent.openCap true])

/-- The value the batch read produces for one requested frame number on
the exception-free path. -/
def expectedRes (v : VideoModel) (fn : ℤ) : Option Frame :=
  if fn < 1 ∨ fn > v.totalFrames then none else v.readAt (fn - 1)

/-- Dict lookup on the returned `results` mapping (`results.get(fn)`):
`some` when the key is present, carrying the stored frame-or-`None`. -/
def lookupFrames (rs : List (ℤ × Option Frame)) (fn : ℤ) : Option (Option Frame) :=
  match rs.find? (fun e => e.1 == fn) with
  | none => none
  | some e => some e.2

/-- Concrete video on which `extract_frames_batch` raises during the
first read: the capture opens, frame 1 is in range, and the read at
0-indexed position 0 raises. -/
def cexVideo : VideoModel :=
  { opensOk := true, totalFrames := 5,
    readAt := fun _ => some 0, raiseAt := fun i => i == 0 }

/-- Concrete three-frame video that opens, never raises, and fails the
read at 0-indexed position 1 (`ret == False`). -/
def okVideo : VideoModel :=
  { opensOk := true, totalFrames := 3,
    readAt := fun i => if i == 1 then none else some 7, raiseAt := fun _ => false }

/-- Concrete video that opens, never raises, and reads every position. -/
def calmVideo : VideoModel :=
  { opensOk := true, totalFrames := 5,
    readAt := fun _ => some 0, raiseAt := fun _ => false }

/-! # Theorems -/

/-- Helper for the COCO canvas bound: an origin clamped into
`[0, W-1]` plus a width clamped into `[1, W - origin]` never exceeds
`W`, for any canvas extent `W ≥ 1`. -/
theorem cocoClamp_le (W xp wp : ℚ) (hW : 1 ≤ W) :
    max 0 (min (W - 1) xp) + max 1 (min (W - max 0 (min (W - 1) xp)) wp) ≤ W := by
  have h1 : max 0 (min (W - 1) xp) ≤ W - 1 :=
    max_le (by linarith) (min_le_left _ _)
  have h2 : max 1 (min (W - max 0 (min (W - 1) xp)) wp) ≤
      W - max 0 (min (W - 1) xp) :=
    max_le (by linarith) (min_le_left _ _)
  linarith

/-- C2: the YOLO box conversion returns the center-format quadruple
`(x/100 + (w/100)/2, y/100 + (h/100)/2, w/100, h/100)` with each of the
four outputs clamped to `[0,1]` independently; the result does not depend
on the image dimensions, and `x=10, y=20, w=30, h=40` yields
`(0.25, 0.40, 0.30, 0.40)` for every image size. -/
theorem yolo_bbox_spec (x y width height : ℚ) (iw ih iw2 ih2 : ℕ) :
    convertBboxToYolo x y width height iw ih =
      (max 0 (min 1 (x / 100 + (width / 100) / 2)),
       max 0 (min 1 (y / 100 + (height / 100) / 2)),
       max 0 (min 1 (width / 100)),
       max 0 (min 1 (height / 100)))
    ∧ convertBboxToYolo x y width height iw ih =
      convertBboxToYolo x y width height iw2 ih2
    ∧ convertBboxToYolo 10 20 30 40 iw ih = (0.25, 0.40, 0.30, 0.40) := by
  refine ⟨rfl, rfl, ?_⟩
  show (max 0 (min 1 (10 / 100 + 30 / 100 / 2)), max 0 (min 1 (20 / 100 + 40 / 100 / 2)),
    max 0 (min 1 ((30 : ℚ) / 100)), max 0 (min 1 ((40 : ℚ) / 100))) = _
  norm_num

/-- C3: the COCO box conversion clamps the origin into the canvas and the
extent against the already-clamped origin, so the returned box satisfies
`x_px + w_px ≤ img_w` and `y_px + h_px ≤ img_h` for every box and every
canvas with `img_w, img_h ≥ 1`; on a 640x480 canvas the box
`x=10, y=20, w=30, h=40` yields `(64, 96, 192, 192)` with area `36864`. -/
theorem coco_bbox_spec (x y width height imgW imgH : ℚ)
    (hW : 1 ≤ imgW) (hH : 1 ≤ imgH) :
    (convertBboxToCoco x y width height imgW imgH).1 +
      (convertBboxToCoco x y width height imgW imgH).2.2.1 ≤ imgW
    ∧ (convertBboxToCoco x y width height imgW imgH).2.1 +
      (convertBboxToCoco x y width height imgW imgH).2.2.2 ≤ imgH
    ∧ convertBboxToCoco 10 20 30 40 640 480 = (64, 96, 192, 192)
    ∧ (convertBboxToCoco 10 20 30 40 640 480).2.2.1 *
      (convertBboxToCoco 10 20 30 40 640 480).2.2.2 = 36864 := by
  have hconc : convertBboxToCoco 10 20 30 40 640 480 = (64, 96, 192, 192) := by
    show (max 0 (min (640 - 1) (10 / 100 * 640)),
      max 0 (min (480 - 1) (20 / 100 * 480)),
      max 1 (min (640 - max 0 (min (640 - 1) ((10 : ℚ) / 100 * 640))) (30 / 100 * 640)),
      max 1 (min (480 - max 0 (min (480 - 1) ((20 : ℚ) / 100 * 480))) (40 / 100 * 480))) = _
    norm_num
  refine ⟨cocoClamp_le imgW _ _ hW, cocoClamp_le imgH _ _ hH, hconc, ?_⟩
  rw [hconc]
  norm_num

/-- C3 witness: the theorem at the concrete canvas 640x480 and the
concrete box of the claim. -/
theorem coco_bbox_spec_witness :
    (1 : ℚ) ≤ 640 ∧ (1 : ℚ) ≤ 480 ∧
    convertBboxToCoco 10 20 30 40 640 480 = (64, 96, 192, 192) :=
  ⟨by norm_num, by norm_num,
    (coco_bbox_spec 10 20 30 40 640 480 (by norm_num) (by norm_num)).2.2.1⟩

/-- C5: `find_matching_video` tries exact filename, suffix-after-dash
exact, suffix-stem substring, then cleaned-stem containment (the latter
only when the reference stem exceeds 10 characters), returning the first
hit; on candidates `["20250514_ride.mp4"]` and reference
`/data/upload/4/3b780495-20250514_ride.mp4` strategy 1 misses and
strategy 2 resolves the match; when all four strategies miss, the result
is `none` (the function is total: it never raises). -/
theorem find_matching_video_spec :
    (∀ vfs ref, find_matching_video vfs ref =
      ((strategy1 vfs (pathName ref)).orElse (fun _ =>
        (strategy2 vfs (pathName ref)).orElse (fun _ =>
          (strategy3 vfs (pathName ref)).orElse (fun _ =>
            strategy4 vfs (pathName ref))))))
    ∧ find_matching_video ["20250514_ride.mp4"] "/data/upload/4/3b780495-20250514_ride.mp4"
        = some "20250514_ride.mp4"
    ∧ strategy1 ["20250514_ride.mp4"] (pathName "/data/upload/4/3b780495-20250514_ride.mp4")
        = none
    ∧ strategy2 ["20250514_ride.mp4"] (pathName "/data/upload/4/3b780495-20250514_ride.mp4")
        = some "20250514_ride.mp4"
    ∧ (∀ vfs ref, strategy1 vfs (pathName ref) = none →
        strategy2 vfs (pathName ref) = none →
        strategy3 vfs (pathName ref) = none →
        strategy4 vfs (pathName ref) = none →
        find_matching_video vfs ref = none) := by
  have cascade : ∀ vfs ref, find_matching_video vfs ref =
      ((strategy1 vfs (pathName ref)).orElse (fun _ =>
        (strategy2 vfs (pathName ref)).orElse (fun _ =>
          (strategy3 vfs (pathName ref)).orElse (fun _ =>
            strategy4 vfs (pathName ref))))) := by
    intro vfs ref
    unfold find_matching_video strategy1 strategy2 strategy3
    dsimp only
    cases h1 : vfs.find? (fun v => pathName v == pathName ref) with
    | some v => rfl
    | none =>
      cases h2 : dashTail (pathName ref).data with
      | none => rfl
      | some mp =>
        dsimp only
        cases h3 : vfs.find? (fun v => pathName v == String.mk mp) with
        | some v => rfl
        | none =>
          cases h4 : vfs.find?
              (fun v => containsSub (stemOf (String.mk mp)).data (vstem v).data) with
          | some v => rfl
          | none => rfl
  refine ⟨cascade, by decide, by decide, by decide, ?_⟩
  intro vfs ref h1 h2 h3 h4
  rw [cascade, h1, h2, h3, h4]
  rfl

/-- C5 witness: a candidate list sharing no relevant substring with the
reference defeats all four strategies, and the matcher then returns
`none`. -/
theorem find_matching_video_spec_witness :
    strategy1 ["zzz.mp4"] (pathName "/data/upload/4/3b780495-20250514_ride.mp4") = none
    ∧ strategy2 ["zzz.mp4"] (pathName "/data/upload/4/3b780495-20250514_ride.mp4") = none
    ∧ strategy3 ["zzz.mp4"] (pathName "/data/upload/4/3b780495-20250514_ride.mp4") = none
    ∧ strategy4 ["zzz.mp4"] (pathName "/data/upload/4/3b780495-20250514_ride.mp4") = none
    ∧ find_matching_video ["zzz.mp4"] "/data/upload/4/3b780495-20250514_ride.mp4" = none :=
  ⟨by decide, by decide, by decide, by decide,
    find_matching_video_spec.2.2.2.2 ["zzz.mp4"] "/data/upload/4/3b780495-20250514_ride.mp4"
      (by decide) (by decide) (by decide) (by decide)⟩

/-- C1: the claim that `_process_annotations` resolves each record via
the matcher with the prefer-exact flag and continues past unresolved
records fails on the code as written: the call at
src/utils/annotation_processor.py line 76 passes the keyword argument
`prefer_exact_match`, but `find_matching_video`
(src/utils/video_matcher.py line 32) accepts no such parameter, so
Python raises `TypeError` on the very first record and the run aborts,
whatever the class mapping, the resolution outcomes, or the records. -/
theorem processAnnots_typeError (cm : ClassMap) (resolve : String → Option String)
    (r : AnnotRecord) (rs : List AnnotRecord) :
    processAnnots cm resolve (r :: rs) =
      Except.error (PyErr.typeError
        "find_matching_video got an unexpected keyword argument prefer_exact_match") := by
  rfl

/-- Helper: the sequence loop ignores exactly the items its guards skip,
so pre-filtering a track's sequence to the kept items leaves
`collectBox` unchanged. -/
theorem collectBox_filter (cid : ℤ) (cn : String) (items : List SequenceItem) :
    collectBox cid cn (items.filter keptItem) = collectBox cid cn items := by
  induction items with
  | nil => rfl
  | cons it rest ih =>
    by_cases hk : keptItem it = true
    · rw [List.filter_cons_of_pos hk]
      simp only [collectBox, List.filterMap_cons] at *
      cases hfit : (match it.frame with
        | none => none
        | some n => if it.enabled == some false then none
            else some (n, mkBBox cid cn it n) : Option (ℤ × BBoxData)) with
      | none => rw [ih]
      | some p => rw [ih]
    · rw [List.filter_cons_of_neg hk]
      have hnone : (match it.frame with
          | none => none
          | some n => if it.enabled == some false then none
              else some (n, mkBBox cid cn it n) : Option (ℤ × BBoxData)) = none := by
        cases hf : it.frame with
        | none => rfl
        | some n =>
          have : (it.enabled == some false) = true := by
            by_contra hne
            exact hk (by simp [keptItem, hf, Bool.not_eq_true] at hne ⊢; simp [hne])
          simp [this]
      simp only [collectBox, List.filterMap_cons] at *
      rw [hnone] at *
      exact ih

/-- C4: a keyframe with `enabled = false` or without a `frame` key is
dropped while the frame-to-annotation-list entries are collected —
pre-removing exactly those items changes nothing, so they never appear in
any frame's list — while a keyframe whose `enabled` key is absent is
kept and contributes its box. -/
theorem keyframe_filter_spec :
    (∀ (cm : ClassMap) (boxes : List BoxTrack), collectEntries cm boxes =
      collectEntries cm
        (boxes.map (fun b => { b with sequence := b.sequence.filter keptItem })))
    ∧ (∀ (cm : ClassMap) (cn : String) (cid : ℤ) (it : SequenceItem) (n : ℤ)
          (fc : Option ℤ) (dur : Option ℚ),
        List.lookup cn cm = some cid → it.frame = some n → it.enabled = none →
        collectEntries cm [⟨[cn], [it], fc, dur⟩] =
          Except.ok [(n, mkBBox cid cn it n)]) := by
  constructor
  · intro cm boxes
    induction boxes with
    | nil => rfl
    | cons b bs ih =>
      simp only [List.map_cons, collectEntries]
      cases hl : b.labels with
      | nil => rfl
      | cons cn tl =>
        dsimp only
        cases hlook : List.lookup cn cm with
        | none => rfl
        | some cid =>
          dsimp only
          rw [← ih, collectBox_filter]
  · intro cm cn cid it n fc dur hlook hf he
    simp only [collectEntries, hlook, collectBox, List.filterMap_cons, hf, he,
      List.filterMap_nil]
    simp

/-- C4 witness: a concrete keyframe with a `frame` key and no `enabled`
key lands in the collected entries. -/
theorem keyframe_filter_spec_witness :
    List.lookup "cyclist" [("cyclist", (0 : ℤ))] = some 0
    ∧ (⟨some 5, 1, 2, 3, 4, none, none⟩ : SequenceItem).frame = some 5
    ∧ (⟨some 5, 1, 2, 3, 4, none, none⟩ : SequenceItem).enabled = none
    ∧ collectEntries [("cyclist", 0)]
        [⟨["cyclist"], [⟨some 5, 1, 2, 3, 4, none, none⟩], none, none⟩] =
      Except.ok [(5, mkBBox 0 "cyclist" ⟨some 5, 1, 2, 3, 4, none, none⟩ 5)] :=
  ⟨by decide, rfl, rfl,
    keyframe_filter_spec.2 [("cyclist", 0)] "cyclist" 0
      ⟨some 5, 1, 2, 3, 4, none, none⟩ 5 none none (by decide) rfl rfl⟩

/-- C10: a record whose video resolves and whose `box` key holds an empty
list makes the record loop raise `IndexError` at
entry 0 of the defaulted `box` list (the one-empty-dict default applies only when
the `box` key is absent, in which case the metadata defaults to 0). -/
theorem emptyBox_indexError (cm : ClassMap) (resolve : String → Option String)
    (r : AnnotRecord) (rs : List AnnotRecord) (vf : String)
    (h1 : resolve r.video = some vf) (h2 : r.box = some []) :
    processRecord cm resolve r = Except.error PyErr.indexError
    ∧ processAnnotsResolved cm resolve (r :: rs) = Except.error PyErr.indexError
    ∧ (∀ (r2 : AnnotRecord) (vf2 : String), resolve r2.video = some vf2 → r2.box = none →
        processRecord cm resolve r2 = Except.ok (some ⟨vf2, [], 0, 0⟩)) := by
  have hrec : processRecord cm resolve r = Except.error PyErr.indexError := by
    simp only [processRecord, afterResolve, h1, h2, Option.getD, collectEntries]
  refine ⟨hrec, ?_, ?_⟩
  · simp only [processAnnotsResolved, hrec]
  · intro r2 vf2 h3 h4
    simp only [processRecord, afterResolve, h3, h4, Option.getD, collectEntries]

/-- C10 witness: the theorem at a concrete resolvable record carrying
`box = []`. -/
theorem emptyBox_indexError_witness :
    (fun _ => some "v.mp4" : String → Option String) "/d/a-v.mp4" = some "v.mp4"
    ∧ processRecord [] (fun _ => some "v.mp4") ⟨"/d/a-v.mp4", some []⟩ =
        Except.error PyErr.indexError :=
  ⟨rfl, (emptyBox_indexError [] (fun _ => some "v.mp4") ⟨"/d/a-v.mp4", some []⟩ []
      "v.mp4" rfl rfl).1⟩

/-- C8: construction fails before any output is written — a malformed or
missing annotation document surfaces as the load `ValueError`, a class
label set not covered by the mapping surfaces as an error carrying
exactly the missing names, and any construction error prevents the
pipeline from emitting anything. -/
theorem initProcessor_spec :
    (∀ (e : String) (cm : ClassMap), initProcessor (Except.error e) cm =
        Except.error (PyErr.valueError ("Error loading annotations: " ++ e)))
    ∧ (∀ (recs : List AnnotRecord) (cm : ClassMap),
        ¬ annotClasses recs ⊆ mapKeys cm →
        initProcessor (Except.ok recs) cm =
          Except.error (PyErr.missingClasses (annotClasses recs \ mapKeys cm)))
    ∧ (∀ parsed (cm : ClassMap) (emit : List AnnotRecord → List String) (err : PyErr),
        initProcessor parsed cm = Except.error err →
        runPipeline parsed cm emit = Except.error err) := by
  refine ⟨fun e cm => rfl, ?_, ?_⟩
  · intro recs cm h
    simp only [initProcessor, loadAnnots, validateClassMaps]
    rw [if_neg (fun hc => h (Finset.sdiff_eq_empty_iff_subset.mp hc))]
  · intro parsed cm emit err h
    simp only [runPipeline, h]

/-- C8 witness: annotations referencing `"dog"` against a mapping that
only knows `"cat"` make construction fail with exactly `"dog"` missing. -/
theorem initProcessor_spec_witness :
    ¬ annotClasses [⟨"v", some [⟨["dog"], [], none, none⟩]⟩] ⊆ mapKeys [("cat", 0)]
    ∧ initProcessor (Except.ok [⟨"v", some [⟨["dog"], [], none, none⟩]⟩]) [("cat", 0)] =
        Except.error (PyErr.missingClasses
          (annotClasses [⟨"v", some [⟨["dog"], [], none, none⟩]⟩] \ mapKeys [("cat", 0)])) :=
  ⟨by decide,
    initProcessor_spec.2.1 [⟨"v", some [⟨["dog"], [], none, none⟩]⟩] [("cat", 0)] (by decide)⟩

/-- Helper: membership is preserved by ascending insertion. -/
theorem insertAsc_mem (a x : ℤ) (l : List ℤ) : a ∈ insertAsc x l ↔ a = x ∨ a ∈ l := by
  induction l with
  | nil => simp [insertAsc]
  | cons y ys ih =>
    simp only [insertAsc]
    split
    · simp
    · simp only [List.mem_cons, ih]
      tauto

/-- Helper: `sorted(frame_numbers)` holds exactly the requested numbers. -/
theorem sortAsc_mem (a : ℤ) (l : List ℤ) : a ∈ sortAsc l ↔ a ∈ l := by
  induction l with
  | nil => simp [sortAsc]
  | cons x xs ih => simp [sortAsc, insertAsc_mem, ih]

/-- Helper: on a video where no read raises, the extraction loop returns
one entry per processed frame number, in order, valued by range check
and read outcome. -/
theorem extractLoop_noraise (v : VideoModel) (hnr : ∀ i, v.raiseAt i = false) :
    ∀ (l : List ℤ) (acc : List (ℤ × Option Frame)),
      extractLoop v l acc =
        Except.ok (acc ++ l.map (fun fn => (fn, expectedRes v fn))) := by
  intro l
  induction l with
  | nil => intro acc; simp [extractLoop]
  | cons fn rest ih =>
    intro acc
    simp only [extractLoop, hnr]
    by_cases h : fn < 1 ∨ fn > v.totalFrames
    · rw [if_pos h, ih]
      simp [expectedRes, h]
    · rw [if_neg h]
      simp only [Bool.false_eq_true, if_false, ih]
      simp [expectedRes, h]

/-- Helper: looking a requested key up in the keyed map built over a list
containing it yields the value at that key. -/
theorem lookupFrames_map (g : ℤ → Option Frame) (l : List ℤ) (fn : ℤ) (h : fn ∈ l) :
    lookupFrames (l.map (fun x => (x, g x))) fn = some (g fn) := by
  induction l with
  | nil => cases h
  | cons x xs ih =>
    by_cases hx : x = fn
    · subst hx
      simp [lookupFrames, List.find?_cons_of_pos]
    · have hne : ¬ ((fun e : ℤ × Option Frame => e.1 == fn) (x, g x)) = true := by
        simp [hx]
      have hmem : fn ∈ xs := by
        rcases List.mem_cons.mp h with h1 | h1
        · exact absurd h1.symm hx
        · exact h1
      simp only [List.map_cons, lookupFrames]
      rw [List.find?_cons_of_neg (p := fun e : ℤ × Option Frame => e.1 == fn) _ hne]
      simpa only [lookupFrames] using ih hmem

/-- C6: for a batch over an openable video with no decode exception, a
requested frame number outside `[1, total]` maps to `None`, an in-range
number whose read fails maps to `None`, and an in-range number whose read
succeeds maps to its decoded frame (read at 0-indexed `fn - 1`) — each
key independently, so no bad key aborts the others. -/
theorem extract_batch_per_frame (v : VideoModel) (fns : List ℤ) (fn : ℤ)
    (hopen : v.opensOk = true) (hnr : ∀ i, v.raiseAt i = false) (hmem : fn ∈ fns) :
    ((fn < 1 ∨ fn > v.totalFrames) →
      lookupFrames (extract_frames_batch v fns).1 fn = some none)
    ∧ (¬(fn < 1 ∨ fn > v.totalFrames) → v.readAt (fn - 1) = none →
      lookupFrames (extract_frames_batch v fns).1 fn = some none)
    ∧ (∀ f, ¬(fn < 1 ∨ fn > v.totalFrames) → v.readAt (fn - 1) = some f →
      lookupFrames (extract_frames_batch v fns).1 fn = some (some f)) := by
  have hie : fns.isEmpty = false := by
    cases fns with
    | nil => cases hmem
    | cons a l => rfl
  have hres : (extract_frames_batch v fns).1 =
      (sortAsc fns).map (fun x => (x, expectedRes v x)) := by
    simp only [extract_frames_batch, hie, hopen]
    rw [extractLoop_noraise v hnr]
    simp
  have hlk : lookupFrames (extract_frames_batch v fns).1 fn = some (expectedRes v fn) := by
    rw [hres]
    exact lookupFrames_map _ _ fn ((sortAsc_mem fn fns).mpr hmem)
  refine ⟨?_, ?_, ?_⟩
  · intro h
    rw [hlk]
    simp [expectedRes, h]
  · intro h hread
    rw [hlk]
    simp [expectedRes, h, hread]
  · intro f h hread
    rw [hlk]
    simp [expectedRes, h, hread]

/-- C6 witness: in one batch over a three-frame video, the out-of-range
key 0 maps to `None`, the in-range key 2 whose read fails maps to `None`,
and the in-range key 1 still maps to its decoded frame. -/
theorem extract_batch_per_frame_witness :
    ((0 : ℤ) < 1 ∨ (0 : ℤ) > okVideo.totalFrames)
    ∧ lookupFrames (extract_frames_batch okVideo [2, 0, 1]).1 0 = some none
    ∧ lookupFrames (extract_frames_batch okVideo [2, 0, 1]).1 2 = some none
    ∧ lookupFrames (extract_frames_batch okVideo [2, 0, 1]).1 1 = some (some 7) :=
  ⟨by decide,
    (extract_batch_per_frame okVideo [2, 0, 1] 0 rfl (fun _ => rfl) (by decide)).1
      (by decide),
    (extract_batch_per_frame okVideo [2, 0, 1] 2 rfl (fun _ => rfl) (by decide)).2.1
      (by decide) (by decide),
    (extract_batch_per_frame okVideo [2, 0, 1] 1 rfl (fun _ => rfl) (by decide)).2.2 7
      (by decide) (by decide)⟩

/-- C7 counterexample: the claim that every path of
`extract_frames_batch` that opens a capture handle releases it before
returning is false — on `cexVideo` with request `[1]` the capture opens
(the event list records `openCap true`) and an exception during the first
read is caught, after which the function returns with no `releaseCap`
event. -/
theorem extract_batch_release_cex :
    (extract_frames_batch cexVideo [1]).2 = [CapEvent.openCap true]
    ∧ CapEvent.releaseCap ∉ (extract_frames_batch cexVideo [1]).2 := by
  decide

/-- C7 (amended): when the capture opens and no exception is raised
during reading, the handle is released before the function returns; when
an exception is raised during reading, it is caught and the function
returns the all-`None` mapping without releasing the handle. -/
theorem extract_batch_release (v : VideoModel) (fns : List ℤ)
    (hopen : v.opensOk = true) (hne : fns ≠ []) :
    ((∀ i, v.raiseAt i = false) →
      (extract_frames_batch v fns).2 = [CapEvent.openCap true, CapEvent.releaseCap])
    ∧ (∀ e, extractLoop v (sortAsc fns) [] = Except.error e →
      (extract_frames_batch v fns).2 = [CapEvent.openCap true]
      ∧ (extract_frames_batch v fns).1 = fns.map (fun fn => (fn, none))) := by
  have hie : fns.isEmpty = false := by
    cases fns with
    | nil => exact absurd rfl hne
    | cons a l => rfl
  constructor
  · intro hnr
    simp only [extract_frames_batch, hie, hopen]
    rw [extractLoop_noraise v hnr]
    simp
  · intro e he
    simp only [extract_frames_batch, hie, hopen, he]
    simp

/-- C7 witness: the amended theorem on a video that opens and never
raises — the event trace is exactly open-then-release. -/
theorem extract_batch_release_witness :
    calmVideo.opensOk = true ∧ ([1] : List ℤ) ≠ []
    ∧ (extract_frames_batch calmVideo [1]).2 =
        [CapEvent.openCap true, CapEvent.releaseCap] :=
  ⟨rfl, by decide, (extract_batch_release calmVideo [1] rfl (by decide)).1 (fun _ => rfl)⟩

/-- Helper: appending one element per iteration, as the
`yolo_lines.append` loop does, builds exactly the elementwise map. -/
theorem foldl_append_map {α β : Type} (f : α → β) :
    ∀ (l : List α) (acc : List β),
      l.foldl (fun acc a => acc ++ [f a]) acc = acc ++ l.map f := by
  intro l
  induction l with
  | nil => intro acc; simp
  | cons a rest ih => intro acc; simp [ih]

/-- Helper: every character the digit accumulator emits is a decimal
digit or comes from the seed accumulator. -/
theorem natDigitsAux_chars (fuel : ℕ) :
    ∀ (n : ℕ) (acc : List Char) (c : Char), c ∈ natDigitsAux fuel n acc →
      (∃ d, d < 10 ∧ c = digitChar d) ∨ c ∈ acc := by
  induction fuel with
  | zero => intro n acc c h; exact Or.inr h
  | succ fuel ih =>
    intro n acc c h
    simp only [natDigitsAux] at h
    by_cases hn : n < 10
    · rw [if_pos hn] at h
      rcases List.mem_cons.mp h with h1 | h1
      · exact Or.inl ⟨n, hn, h1⟩
      · exact Or.inr h1
    · rw [if_neg hn] at h
      rcases ih (n / 10) _ c h with h1 | h1
      · exact Or.inl h1
      · rcases List.mem_cons.mp h1 with h2 | h2
        · exact Or.inl ⟨n % 10, Nat.mod_lt _ (by omega), h2⟩
        · exact Or.inr h2

/-- Helper: decimal digit characters are neither a space nor a newline. -/
theorem digitChar_clean : ∀ d < 10, digitChar d ≠ ' ' ∧ digitChar d ≠ '\n' := by
  decide

/-- Helper: a clean character set is preserved by list append. -/
theorem charsClean_append (l1 l2 : List Char)
    (h1 : ∀ c ∈ l1, c ≠ ' ' ∧ c ≠ '\n') (h2 : ∀ c ∈ l2, c ≠ ' ' ∧ c ≠ '\n') :
    ∀ c ∈ l1 ++ l2, c ≠ ' ' ∧ c ≠ '\n' := by
  intro c hc
  rcases List.mem_append.mp hc with h | h
  · exact h1 c h
  · exact h2 c h

/-- Helper: natural-number rendering contains no space and no newline. -/
theorem natDigits_clean (n : ℕ) : ∀ c ∈ natDigits n, c ≠ ' ' ∧ c ≠ '\n' := by
  intro c hc
  rcases natDigitsAux_chars _ _ _ c hc with ⟨d, hd, rfl⟩ | h1
  · exact digitChar_clean d hd
  · cases h1

/-- Helper: Python integer rendering contains no space and no newline. -/
theorem pyIntRepr_clean (i : ℤ) :
    ∀ c ∈ (pyIntRepr i).data, c ≠ ' ' ∧ c ≠ '\n' := by
  have hsign : ∀ c ∈ (if i < 0 then ("-" : String) else "").data, c ≠ ' ' ∧ c ≠ '\n' := by
    by_cases hi : i < 0
    · rw [if_pos hi]; decide
    · rw [if_neg hi]; decide
  intro c hc
  rw [pyIntRepr, String.data_append] at hc
  exact charsClean_append _ _ hsign (natDigits_clean i.natAbs) c hc

/-- Helper: the zero-padded fractional rendering is clean. -/
theorem fracRepr6_clean (n : ℕ) : ∀ c ∈ (fracRepr6 n).data, c ≠ ' ' ∧ c ≠ '\n' := by
  intro c hc
  rw [fracRepr6] at hc
  rcases List.mem_append.mp hc with h | h
  · rcases List.mem_replicate.mp h with ⟨_, rfl⟩
    exact ⟨by decide, by decide⟩
  · exact natDigits_clean n c h

/-- Helper: the `:.6f` rendering contains no space and no newline. -/
theorem fmt6_clean (q : ℚ) : ∀ c ∈ (fmt6 q).data, c ≠ ' ' ∧ c ≠ '\n' := by
  have hsign : ∀ c ∈ (if ratFloor (q * 1000000 + 1/2) < 0 then ("-" : String) else "").data,
      c ≠ ' ' ∧ c ≠ '\n' := by
    by_cases hi : ratFloor (q * 1000000 + 1/2) < 0
    · rw [if_pos hi]; decide
    · rw [if_neg hi]; decide
  have hdot : ∀ c ∈ ("." : String).data, c ≠ ' ' ∧ c ≠ '\n' := by decide
  intro c hc
  simp only [fmt6, String.data_append] at hc
  exact charsClean_append _ _
    (charsClean_append _ _
      (charsClean_append _ _ hsign (natDigits_clean _)) hdot)
    (fracRepr6_clean _) c hc

/-- C9: for a frame whose annotation list holds boxes of at least two
distinct classes, the emitted YOLO label file is exactly one line per box
in arrival order; each line is the five space-separated fields
`class_id cx cy nw nh` — the four coordinates rendered by the 6-decimal
formatter — and every field is free of spaces and newlines, so nothing
follows the fifth field on its line. -/
theorem yolo_label_lines (anns : List BBoxData) (imgShape : ℕ × ℕ)
    (h : ∃ a ∈ anns, ∃ b ∈ anns, a.class_id ≠ b.class_id) :
    createYoloAnnot anns imgShape =
      String.intercalate "\n" (anns.map (fun a => yoloLine a imgShape.2 imgShape.1))
    ∧ (anns.map (fun a => yoloLine a imgShape.2 imgShape.1)).length = anns.length
    ∧ ∀ a ∈ anns,
        yoloLine a imgShape.2 imgShape.1 =
          String.intercalate " "
            [pyIntRepr a.class_id,
             fmt6 (convertBboxToYolo a.x a.y a.width a.height imgShape.2 imgShape.1).1,
             fmt6 (convertBboxToYolo a.x a.y a.width a.height imgShape.2 imgShape.1).2.1,
             fmt6 (convertBboxToYolo a.x a.y a.width a.height imgShape.2 imgShape.1).2.2.1,
             fmt6 (convertBboxToYolo a.x a.y a.width a.height imgShape.2 imgShape.1).2.2.2]
        ∧ ([pyIntRepr a.class_id,
             fmt6 (convertBboxToYolo a.x a.y a.width a.height imgShape.2 imgShape.1).1,
             fmt6 (convertBboxToYolo a.x a.y a.width a.height imgShape.2 imgShape.1).2.1,
             fmt6 (convertBboxToYolo a.x a.y a.width a.height imgShape.2 imgShape.1).2.2.1,
             fmt6 (convertBboxToYolo a.x a.y a.width a.height imgShape.2 imgShape.1).2.2.2]
            : List String).length = 5
        ∧ ∀ s ∈ [pyIntRepr a.class_id,
             fmt6 (convertBboxToYolo a.x a.y a.width a.height imgShape.2 imgShape.1).1,
             fmt6 (convertBboxToYolo a.x a.y a.width a.height imgShape.2 imgShape.1).2.1,
             fmt6 (convertBboxToYolo a.x a.y a.width a.height imgShape.2 imgShape.1).2.2.1,
             fmt6 (convertBboxToYolo a.x a.y a.width a.height imgShape.2 imgShape.1).2.2.2],
            ∀ c ∈ s.data, c ≠ ' ' ∧ c ≠ '\n' := by
  refine ⟨?_, List.length_map _ _, ?_⟩
  · simp only [createYoloAnnot]
    rw [foldl_append_map]
    rfl
  · intro a ha
    refine ⟨rfl, rfl, ?_⟩
    intro s hs
    rcases List.mem_cons.mp hs with rfl | hs
    · exact pyIntRepr_clean _
    rcases List.mem_cons.mp hs with rfl | hs
    · exact fmt6_clean _
    rcases List.mem_cons.mp hs with rfl | hs
    · exact fmt6_clean _
    rcases List.mem_cons.mp hs with rfl | hs
    · exact fmt6_clean _
    rcases List.mem_cons.mp hs with rfl | hs
    · exact fmt6_clean _
    cases hs

/-- C9 witness: two boxes of distinct classes on one 640x480 frame emit
one line each, in arrival order. -/
theorem yolo_label_lines_witness :
    (∃ a ∈ [(⟨0, "cyclist", 10, 20, 30, 40, 100, 4⟩ : BBoxData),
            ⟨1, "person", 50, 60, 25, 35, 100, 4⟩],
      ∃ b ∈ [(⟨0, "cyclist", 10, 20, 30, 40, 100, 4⟩ : BBoxData),
            ⟨1, "person", 50, 60, 25, 35, 100, 4⟩], a.class_id ≠ b.class_id)
    ∧ createYoloAnnot
        [⟨0, "cyclist", 10, 20, 30, 40, 100, 4⟩, ⟨1, "person", 50, 60, 25, 35, 100, 4⟩]
        (480, 640) =
      String.intercalate "\n"
        (([(⟨0, "cyclist", 10, 20, 30, 40, 100, 4⟩ : BBoxData),
           ⟨1, "person", 50, 60, 25, 35, 100, 4⟩]).map (fun a => yoloLine a 640 480))
    ∧ ([(⟨0, "cyclist", 10, 20, 30, 40, 100, 4⟩ : BBoxData),
        ⟨1, "person", 50, 60, 25, 35, 100, 4⟩].map (fun a => yoloLine a 640 480)).length = 2 :=
  ⟨⟨⟨0, "cyclist", 10, 20, 30, 40, 100, 4⟩, by decide, ⟨1, "person", 50, 60, 25, 35, 100, 4⟩,
      by decide, by decide⟩,
    (yolo_label_lines
      [⟨0, "cyclist", 10, 20, 30, 40, 100, 4⟩, ⟨1, "person", 50, 60, 25, 35, 100, 4⟩]
      (480, 640)
      ⟨⟨0, "cyclist", 10, 20, 30, 40, 100, 4⟩, by decide, ⟨1, "person", 50, 60, 25, 35, 100, 4⟩,
        by decide, by decide⟩).1,
    by simp⟩
